import Mathlib

/-!
Verification development for the Ringba reporting bot
(source file ringba_bot_production.py).

The Python source is shallowly embedded: Python floats are modelled as
rationals (the numeric claims under scrutiny only involve exact decimal
arithmetic), pandas data frames as lists of rows of an explicit cell
type, fallible operations as Option, and the external world (browser,
HTTP, database) as explicit function parameters.
-/

/-! ### Small Python-style string helpers

Lean core String.toLower and String.trim are implemented with byte
positions and do not reduce in the kernel, so we use list-based
equivalents (same observable behaviour on the strings that occur here).
-/

/-- Model of Python str.lower (ASCII case folding, as used by the bot). -/
def py_lower (s : String) : String := ⟨s.data.map Char.toLower⟩

/-- Model of Python str.strip with no arguments: remove leading and
trailing whitespace. -/
def py_trim (s : String) : String :=
  ⟨((s.data.dropWhile Char.isWhitespace).reverse.dropWhile Char.isWhitespace).reverse⟩

/-- Is the pattern a prefix of the list? Plain recursion so that it
reduces in the kernel. -/
def starts_with : List Char → List Char → Bool
  | [], _ => true
  | _ :: _, [] => false
  | p :: ps, c :: cs => p = c && starts_with ps cs

/-- Model of the Python substring test, as in the source expression
rpc in col.lower(): does sub occur contiguously inside l? -/
def has_substr (sub : List Char) : List Char → Bool
  | [] => sub.isEmpty
  | c :: rest => starts_with sub (c :: rest) || has_substr sub rest

/-- Python int() truncates toward zero; on a rational num/den this is
truncating integer division. -/
def py_trunc (q : ℚ) : ℤ := q.num.tdiv q.den

/-! ### Data model

One extracted row, as built by both CSV-parsing paths of the source
(dict with keys Target, RPC, Incoming, Converted). -/

structure TargetMetric where
  Target : String
  RPC : ℚ
  Incoming : ℤ
  Converted : ℤ
deriving DecidableEq, Repr

/-! ### calculate_percentage_difference (source lines 1050 to 1068) -/

/-- Embedding of calculate_percentage_difference: percentage change of
current_value against previous_value, with the divide-by-zero guards of
the source. -/
def calculate_percentage_difference (current_value previous_value : ℚ) : ℚ :=
  if previous_value = 0 then
    if current_value = 0 then 0 else 100
  else (current_value - previous_value) / previous_value * 100

/-! ### get_time_slot (source lines 1005 to 1014) -/

/-- Embedding of get_time_slot: classify a wall-clock (hour, minute)
into the three named report slots, defaulting to the literal label
built from the numbers (the Python f-string renders the raw hour and
minute values separated by a colon, with no zero padding). -/
def get_time_slot (hour minute : Nat) : String :=
  if hour = 10 ∧ minute < 30 then "10AM"
  else if hour = 14 ∧ minute < 30 then "2PM"
  else if hour = 16 ∧ 30 ≤ minute then "4:30PM"
  else toString hour ++ ":" ++ toString minute

/-! Every character of the decimal rendering of a Nat is a digit; hence
the fall-through literal label (digits and a colon) can never collide
with the named slot labels, each of which contains a letter. -/

theorem digitChar_isDigit (n : Nat) (h : n < 10) : (Nat.digitChar n).isDigit = true := by
  interval_cases n <;> decide

theorem toDigitsCore_digits (fuel : Nat) :
    ∀ (n : Nat) (acc : List Char), (∀ c ∈ acc, c.isDigit = true) →
      ∀ c ∈ Nat.toDigitsCore 10 fuel n acc, c.isDigit = true := by
  induction fuel with
  | zero => intro n acc hacc c hc; simpa [Nat.toDigitsCore] using hacc c hc
  | succ fuel ih =>
    intro n acc hacc c hc
    rw [Nat.toDigitsCore] at hc
    by_cases h0 : n / 10 = 0
    · simp only [h0, if_pos] at hc
      rcases List.mem_cons.mp hc with h | h
      · subst h; exact digitChar_isDigit _ (Nat.mod_lt _ (by norm_num))
      · exact hacc c h
    · simp only [h0, if_neg, if_false] at hc
      refine ih (n / 10) _ ?_ c hc
      intro d hd
      rcases List.mem_cons.mp hd with h | h
      · subst h; exact digitChar_isDigit _ (Nat.mod_lt _ (by norm_num))
      · exact hacc d h

theorem nat_toString_digits (n : Nat) : ∀ c ∈ (toString n).data, c.isDigit = true := by
  intro c hc
  have hdata : (toString n).data = Nat.toDigitsCore 10 (n + 1) n [] := rfl
  rw [hdata] at hc
  exact toDigitsCore_digits (n + 1) n [] (by simp) c hc

theorem time_slot_literal_ne (h m : Nat) (s : String)
    (hs : ∃ c ∈ s.data, c.isDigit = false ∧ c ≠ ':') :
    toString h ++ ":" ++ toString m ≠ s := by
  intro he
  obtain ⟨c, hcs, hcd, hcc⟩ := hs
  rw [← he, String.data_append, String.data_append] at hcs
  rcases List.mem_append.mp hcs with hl | hr
  · rcases List.mem_append.mp hl with hh | hcol
    · rw [nat_toString_digits h c hh] at hcd; exact Bool.noConfusion hcd
    · have : c = ':' := by simpa using hcol
      exact hcc this
  · rw [nat_toString_digits m c hr] at hcd; exact Bool.noConfusion hcd

/-- C2: the time-slot classifier returns "10AM" exactly when hour = 10
and minute < 30, "2PM" exactly when hour = 14 and minute < 30,
"4:30PM" exactly when hour = 16 and minute >= 30, and for any other
pair falls through to the literal hour:minute label, which matches no
comparison rule; in particular 10:29 maps to "10AM", 10:30 to the
literal "10:30", 14:29 to "2PM", 16:30 to "4:30PM" and 16:29 to the
literal "16:29". -/
theorem C2_get_time_slot_correct (hour minute : Nat) :
    ((get_time_slot hour minute = "10AM") ↔ (hour = 10 ∧ minute < 30)) ∧
    ((get_time_slot hour minute = "2PM") ↔ (hour = 14 ∧ minute < 30)) ∧
    ((get_time_slot hour minute = "4:30PM") ↔ (hour = 16 ∧ 30 ≤ minute)) ∧
    (¬(hour = 10 ∧ minute < 30) → ¬(hour = 14 ∧ minute < 30) → ¬(hour = 16 ∧ 30 ≤ minute) →
      get_time_slot hour minute = toString hour ++ ":" ++ toString minute) ∧
    get_time_slot 10 29 = "10AM" ∧ get_time_slot 10 30 = "10:30" ∧
    get_time_slot 14 29 = "2PM" ∧ get_time_slot 16 30 = "4:30PM" ∧
    get_time_slot 16 29 = "16:29" := by
  have hne10 : toString hour ++ ":" ++ toString minute ≠ "10AM" :=
    time_slot_literal_ne hour minute _ ⟨'A', by decide⟩
  have hne2 : toString hour ++ ":" ++ toString minute ≠ "2PM" :=
    time_slot_literal_ne hour minute _ ⟨'P', by decide⟩
  have hne430 : toString hour ++ ":" ++ toString minute ≠ "4:30PM" :=
    time_slot_literal_ne hour minute _ ⟨'P', by decide⟩
  refine ⟨?_, ?_, ?_, ?_, by decide, by decide, by decide, by decide, by decide⟩
  · unfold get_time_slot
    split_ifs <;>
      first
        | exact iff_of_true rfl (by omega)
        | exact iff_of_false (by decide) (by omega)
        | exact iff_of_false (by assumption) (by omega)
  · unfold get_time_slot
    split_ifs <;>
      first
        | exact iff_of_true rfl (by omega)
        | exact iff_of_false (by decide) (by omega)
        | exact iff_of_false (by assumption) (by omega)
  · unfold get_time_slot
    split_ifs <;>
      first
        | exact iff_of_true rfl (by omega)
        | exact iff_of_false (by decide) (by omega)
        | exact iff_of_false (by assumption) (by omega)
  · intro h1 h2 h3
    unfold get_time_slot
    rw [if_neg h1, if_neg h2, if_neg h3]

theorem C2_get_time_slot_correct_witness :
    get_time_slot 11 5 = "11:5" ∧ get_time_slot 10 29 = "10AM" :=
  ⟨(C2_get_time_slot_correct 11 5).2.2.2.1 (by omega) (by omega) (by omega),
   (C2_get_time_slot_correct 10 29).2.2.2.2.1⟩

/-- C1: the percentage-change function returns 0 when both values are
zero, 100 when only the previous value is zero, and otherwise the exact
relative change times 100; in particular 110 against 100 gives 10 and
90 against 100 gives -10. -/
theorem C1_calculate_percentage_difference_correct (curr prev : ℚ) :
    (curr = 0 → prev = 0 → calculate_percentage_difference curr prev = 0) ∧
    (prev = 0 → curr ≠ 0 → calculate_percentage_difference curr prev = 100) ∧
    (prev ≠ 0 → calculate_percentage_difference curr prev = (curr - prev) / prev * 100) ∧
    calculate_percentage_difference 110 100 = 10 ∧
    calculate_percentage_difference 90 100 = -10 := by
  refine ⟨?_, ?_, ?_, ?_, ?_⟩
  · intro hc hp; simp [calculate_percentage_difference, hp, hc]
  · intro hp hc; simp [calculate_percentage_difference, hp, hc]
  · intro hp; simp [calculate_percentage_difference, hp]
  · norm_num [calculate_percentage_difference]
  · norm_num [calculate_percentage_difference]

theorem C1_calculate_percentage_difference_correct_witness :
    calculate_percentage_difference 0 0 = 0 ∧
    calculate_percentage_difference 5 0 = 100 ∧
    calculate_percentage_difference 110 100 = (110 - 100) / 100 * 100 :=
  ⟨(C1_calculate_percentage_difference_correct 0 0).1 rfl rfl,
   (C1_calculate_percentage_difference_correct 5 0).2.1 rfl (by norm_num),
   (C1_calculate_percentage_difference_correct 110 100).2.2.1 (by norm_num)⟩

/-! ### create_comparative_report (source lines 1070 to 1132) -/

/-- One row of the comparative report: the dict built per current item
by create_comparative_report, with the three percentage fields None for
a new target, and the previous raw values recorded when a match exists. -/
structure ReportItem where
  Target : String
  RPC : ℚ
  Incoming : ℤ
  Converted : ℤ
  is_comparative : Bool
  RPC_pct : Option ℚ
  Incoming_pct : Option ℚ
  Converted_pct : Option ℚ
  Previous_RPC : Option ℚ
  Previous_Incoming : Option ℤ
  Previous_Converted : Option ℤ
deriving DecidableEq, Repr

/-- The Python dict comprehension building previous_lookup in
create_comparative_report: later list entries overwrite earlier ones
(last occurrence wins). -/
def previous_lookup (previous_data : List TargetMetric) : String → Option TargetMetric :=
  previous_data.foldl
    (fun m item => fun key => if key = item.Target then some item else m key)
    (fun _ => none)

/-- The body of the per-target loop of create_comparative_report. -/
def comparative_item (previous_data : List TargetMetric) (current_item : TargetMetric) :
    ReportItem :=
  match previous_lookup previous_data current_item.Target with
  | some previous_item =>
    { Target := current_item.Target, RPC := current_item.RPC,
      Incoming := current_item.Incoming, Converted := current_item.Converted,
      is_comparative := true,
      RPC_pct := some (calculate_percentage_difference current_item.RPC previous_item.RPC),
      Incoming_pct := some (calculate_percentage_difference
        (current_item.Incoming : ℚ) (previous_item.Incoming : ℚ)),
      Converted_pct := some (calculate_percentage_difference
        (current_item.Converted : ℚ) (previous_item.Converted : ℚ)),
      Previous_RPC := some previous_item.RPC,
      Previous_Incoming := some previous_item.Incoming,
      Previous_Converted := some previous_item.Converted }
  | none =>
    { Target := current_item.Target, RPC := current_item.RPC,
      Incoming := current_item.Incoming, Converted := current_item.Converted,
      is_comparative := true,
      RPC_pct := none, Incoming_pct := none, Converted_pct := none,
      Previous_RPC := none, Previous_Incoming := none, Previous_Converted := none }

/-- A report is either the raw current rows (standard path, where the
source keeps the plain target dicts) or a list of comparative rows. -/
inductive ReportData where
  | standard (rows : List TargetMetric)
  | comparative (rows : List ReportItem)
deriving DecidableEq, Repr

/-- Embedding of create_comparative_report: with falsy (empty) previous
data the current rows are returned unchanged, otherwise one comparative
row is built per current row, preserving order. -/
def create_comparative_report (current_data previous_data : List TargetMetric) : ReportData :=
  if previous_data = [] then .standard current_data
  else .comparative (current_data.map (comparative_item previous_data))

/-- The two shapes of a line in the comparative Slack message built by
main: percentage arrows when RPC_pct is present, otherwise the raw
current values with the new-target suffix (never rendered as 0 percent). -/
inductive CompLine where
  | withPct (target : String) (rpc_pct incoming_pct converted_pct : ℚ)
  | newTarget (target : String) (rpc : ℚ) (incoming converted : ℤ)
deriving DecidableEq, Repr

/-- The per-row branch of the comparative message formatting in main:
the source tests rpc_pct is not None to choose the line shape. -/
def render_comparative_item (r : ReportItem) : CompLine :=
  match r.RPC_pct with
  | some v => .withPct r.Target v (r.Incoming_pct.getD 0) (r.Converted_pct.getD 0)
  | none => .newTarget r.Target r.RPC r.Incoming r.Converted

/-! ### get_previous_report_data (source lines 1033 to 1048) and the
slot selection in main (source lines 1524 to 1548) -/

/-- Embedding of get_previous_report_data, with the Supabase table
abstracted as a store mapping a time-slot key to the stored target rows
(none when the table has no row for that slot). -/
def get_previous_report_data (store : String → Option (List TargetMetric))
    (hour minute : Nat) : Option (List TargetMetric) :=
  let time_slot := get_time_slot hour minute
  if time_slot = "2PM" then store "10AM"
  else if time_slot = "4:30PM" then store "2PM"
  else none

/-- The report-selection logic of main: a 2 PM run compares against the
"10AM" snapshot and a 4:30 PM run against the "2PM" snapshot; otherwise,
or when the designated previous snapshot is absent or empty (both falsy
in Python), the standard non-comparative report is produced. The Bool
is the is_comparative_report flag recorded in the run metadata
(last_run_result, surfaced by the health endpoint). -/
def main_report (store : String → Option (List TargetMetric)) (hour minute : Nat)
    (target_rpc_data : List TargetMetric) : ReportData × Bool :=
  if hour = 14 ∧ minute < 30 then
    match get_previous_report_data store hour minute with
    | some previous_data =>
      if previous_data = [] then (.standard target_rpc_data, false)
      else (create_comparative_report target_rpc_data previous_data, true)
    | none => (.standard target_rpc_data, false)
  else if hour = 16 ∧ 30 ≤ minute then
    match get_previous_report_data store hour minute with
    | some previous_data =>
      if previous_data = [] then (.standard target_rpc_data, false)
      else (create_comparative_report target_rpc_data previous_data, true)
    | none => (.standard target_rpc_data, false)
  else (.standard target_rpc_data, false)

/-! ### Lookup lemmas shared by the comparison claims -/

theorem previous_lookup_append (l : List TargetMetric) (x : TargetMetric) (name : String) :
    previous_lookup (l ++ [x]) name =
      if name = x.Target then some x else previous_lookup l name := by
  simp [previous_lookup, List.foldl_append]

theorem previous_lookup_eq_getLast (previous : List TargetMetric) (name : String) :
    previous_lookup previous name =
      (previous.filter (fun p => p.Target = name)).getLast? := by
  induction previous using List.reverseRecOn with
  | nil => simp [previous_lookup]
  | append_singleton l x ih =>
    rw [previous_lookup_append, List.filter_append]
    by_cases h : name = x.Target
    · simp [h]
    · have h' : ¬(x.Target = name) := fun e => h e.symm
      simp [h, h', ih]

theorem previous_lookup_isSome (previous : List TargetMetric) (name : String) :
    (previous_lookup previous name).isSome = true ↔
      name ∈ previous.map TargetMetric.Target := by
  rw [previous_lookup_eq_getLast, List.getLast?_isSome]
  constructor
  · intro h
    rcases List.exists_mem_of_ne_nil _ h with ⟨p, hp⟩
    rcases List.mem_filter.mp hp with ⟨hmem, hname⟩
    exact List.mem_map.mpr ⟨p, hmem, of_decide_eq_true hname⟩
  · intro h
    rcases List.mem_map.mp h with ⟨p, hmem, hname⟩
    intro hnil
    have : p ∈ previous.filter (fun p => p.Target = name) :=
      List.mem_filter.mpr ⟨hmem, decide_eq_true hname⟩
    rw [hnil] at this
    exact List.not_mem_nil p this

theorem get_time_slot_ne_2PM (hour minute : Nat) (h : ¬(hour = 14 ∧ minute < 30)) :
    get_time_slot hour minute ≠ "2PM" := by
  intro he
  unfold get_time_slot at he
  by_cases h1 : hour = 10 ∧ minute < 30
  · rw [if_pos h1] at he; exact absurd he (by decide)
  · rw [if_neg h1] at he
    by_cases h2 : hour = 14 ∧ minute < 30
    · exact h h2
    · rw [if_neg h2] at he
      by_cases h3 : hour = 16 ∧ 30 ≤ minute
      · rw [if_pos h3] at he; exact absurd he (by decide)
      · rw [if_neg h3] at he
        exact time_slot_literal_ne hour minute "2PM" ⟨'P', by decide⟩ he

theorem get_time_slot_ne_430PM (hour minute : Nat) (h : ¬(hour = 16 ∧ 30 ≤ minute)) :
    get_time_slot hour minute ≠ "4:30PM" := by
  intro he
  unfold get_time_slot at he
  by_cases h1 : hour = 10 ∧ minute < 30
  · rw [if_pos h1] at he; exact absurd he (by decide)
  · rw [if_neg h1] at he
    by_cases h2 : hour = 14 ∧ minute < 30
    · rw [if_pos h2] at he; exact absurd he (by decide)
    · rw [if_neg h2] at he
      by_cases h3 : hour = 16 ∧ 30 ≤ minute
      · exact h h3
      · rw [if_neg h3] at he
        exact time_slot_literal_ne hour minute "4:30PM" ⟨'P', by decide⟩ he

/-- C3: for non-empty current and previous row lists,
create_comparative_report produces exactly one comparative row per
current row, in order, carrying the current values; the three
percentage deltas are present exactly when the target name occurs in
the previous rows, and a target absent from the previous rows gets all
three deltas None and is rendered as a new target (not as a zero
percentage). -/
theorem C3_create_comparative_report_correct (current previous : List TargetMetric)
    (_hc : current ≠ []) (hp : previous ≠ []) :
    create_comparative_report current previous =
      ReportData.comparative (current.map (comparative_item previous)) ∧
    (current.map (comparative_item previous)).length = current.length ∧
    (∀ (i : ℕ) (c : TargetMetric), current[i]? = some c →
      (current.map (comparative_item previous))[i]? = some (comparative_item previous c) ∧
      (comparative_item previous c).Target = c.Target ∧
      (comparative_item previous c).RPC = c.RPC ∧
      (comparative_item previous c).Incoming = c.Incoming ∧
      (comparative_item previous c).Converted = c.Converted ∧
      (((comparative_item previous c).RPC_pct ≠ none ∧
        (comparative_item previous c).Incoming_pct ≠ none ∧
        (comparative_item previous c).Converted_pct ≠ none) ↔
          c.Target ∈ previous.map TargetMetric.Target) ∧
      (c.Target ∉ previous.map TargetMetric.Target →
        (comparative_item previous c).RPC_pct = none ∧
        (comparative_item previous c).Incoming_pct = none ∧
        (comparative_item previous c).Converted_pct = none ∧
        render_comparative_item (comparative_item previous c) =
          CompLine.newTarget c.Target c.RPC c.Incoming c.Converted)) := by
  refine ⟨by simp [create_comparative_report, hp], List.length_map _ _, ?_⟩
  intro i c hic
  refine ⟨by rw [List.getElem?_map, hic]; rfl, ?_⟩
  unfold comparative_item
  cases hl : previous_lookup previous c.Target with
  | some p =>
    refine ⟨rfl, rfl, rfl, rfl, ?_, ?_⟩
    · refine iff_of_true (by simp) ?_
      exact (previous_lookup_isSome previous c.Target).mp (by rw [hl]; rfl)
    · intro hmem
      exact absurd ((previous_lookup_isSome previous c.Target).mp (by rw [hl]; rfl)) hmem
  | none =>
    refine ⟨rfl, rfl, rfl, rfl, ?_, ?_⟩
    · refine iff_of_false (by simp) ?_
      intro hmem
      have := (previous_lookup_isSome previous c.Target).mpr hmem
      rw [hl] at this
      exact Bool.noConfusion this
    · intro _
      exact ⟨rfl, rfl, rfl, rfl⟩

theorem C3_create_comparative_report_correct_witness :
    create_comparative_report [(⟨"Acme", 12, 55, 5⟩ : TargetMetric)]
        [(⟨"Other", 10, 50, 5⟩ : TargetMetric)] =
      ReportData.comparative
        [comparative_item [(⟨"Other", 10, 50, 5⟩ : TargetMetric)] ⟨"Acme", 12, 55, 5⟩] ∧
    (comparative_item [(⟨"Other", 10, 50, 5⟩ : TargetMetric)] ⟨"Acme", 12, 55, 5⟩).RPC_pct =
      none := by
  have h := C3_create_comparative_report_correct
    [(⟨"Acme", 12, 55, 5⟩ : TargetMetric)] [(⟨"Other", 10, 50, 5⟩ : TargetMetric)]
    (by simp) (by simp)
  refine ⟨by simpa using h.1, ?_⟩
  exact ((h.2.2 0 ⟨"Acme", 12, 55, 5⟩ rfl).2.2.2.2.2.2 (by decide)).1

/-- C4: a run in the "10AM" slot, or in any slot other than "2PM" and
"4:30PM", has no designated predecessor for any store state, and main
produces the standard non-comparative report; conversely whenever
get_previous_report_data reads the store, the run slot is "2PM" reading
slot "10AM" or "4:30PM" reading slot "2PM". -/
theorem C4_standard_slot_no_predecessor (store : String → Option (List TargetMetric))
    (data : List TargetMetric) (hour minute : Nat) :
    (get_time_slot hour minute = "10AM" → get_previous_report_data store hour minute = none) ∧
    (¬(hour = 14 ∧ minute < 30) → ¬(hour = 16 ∧ 30 ≤ minute) →
      get_previous_report_data store hour minute = none ∧
      main_report store hour minute data = (ReportData.standard data, false)) ∧
    (∀ r, get_previous_report_data store hour minute = some r →
      (get_time_slot hour minute = "2PM" ∧ store "10AM" = some r) ∨
      (get_time_slot hour minute = "4:30PM" ∧ store "2PM" = some r)) := by
  refine ⟨?_, ?_, ?_⟩
  · intro h10
    unfold get_previous_report_data
    rw [h10, if_neg (show ¬("10AM" : String) = "2PM" by decide),
      if_neg (show ¬("10AM" : String) = "4:30PM" by decide)]
  · intro h14 h16
    have hs2 := get_time_slot_ne_2PM hour minute h14
    have hs430 := get_time_slot_ne_430PM hour minute h16
    constructor
    · unfold get_previous_report_data
      rw [if_neg hs2, if_neg hs430]
    · unfold main_report
      rw [if_neg h14, if_neg h16]
  · intro r hr
    unfold get_previous_report_data at hr
    by_cases h2 : get_time_slot hour minute = "2PM"
    · rw [if_pos h2] at hr
      exact Or.inl ⟨h2, hr⟩
    · rw [if_neg h2] at hr
      by_cases h430 : get_time_slot hour minute = "4:30PM"
      · rw [if_pos h430] at hr
        exact Or.inr ⟨h430, hr⟩
      · rw [if_neg h430] at hr
        exact Option.noConfusion hr

theorem C4_standard_slot_no_predecessor_witness :
    get_previous_report_data (fun _ => none) 10 0 = none ∧
    main_report (fun _ => none) 9 0 [] = (ReportData.standard [], false) ∧
    ((get_time_slot 14 0 = "2PM" ∧
        (fun s => if s = "10AM" then some [(⟨"Acme", 10, 50, 5⟩ : TargetMetric)] else none)
          "10AM" = some [(⟨"Acme", 10, 50, 5⟩ : TargetMetric)]) ∨
     (get_time_slot 14 0 = "4:30PM" ∧
        (fun s => if s = "10AM" then some [(⟨"Acme", 10, 50, 5⟩ : TargetMetric)] else none)
          "2PM" = some [(⟨"Acme", 10, 50, 5⟩ : TargetMetric)])) :=
  ⟨(C4_standard_slot_no_predecessor (fun _ => none) [] 10 0).1 rfl,
   ((C4_standard_slot_no_predecessor (fun _ => none) [] 9 0).2.1
      (by omega) (by omega)).2,
   (C4_standard_slot_no_predecessor
      (fun s => if s = "10AM" then some [(⟨"Acme", 10, 50, 5⟩ : TargetMetric)] else none)
      [] 14 0).2.2 [(⟨"Acme", 10, 50, 5⟩ : TargetMetric)] rfl⟩

/-- C5: at a comparative slot (2 PM or 4:30 PM run) whose designated
previous snapshot is absent from the store, main degrades to the
standard report holding only the current rows, and the degradation is
flagged in the run metadata by is_comparative = false. -/
theorem C5_degraded_when_previous_absent (store : String → Option (List TargetMetric))
    (data : List TargetMetric) (hour minute : Nat) :
    (hour = 14 → minute < 30 → store "10AM" = none →
      main_report store hour minute data = (ReportData.standard data, false)) ∧
    (hour = 16 → 30 ≤ minute → store "2PM" = none →
      main_report store hour minute data = (ReportData.standard data, false)) := by
  constructor
  · intro h14 hm habs
    subst h14
    have hslot : get_time_slot 14 minute = "2PM" := by
      unfold get_time_slot
      rw [if_neg (by omega), if_pos ⟨rfl, hm⟩]
    unfold main_report
    rw [if_pos ⟨rfl, hm⟩]
    unfold get_previous_report_data
    rw [hslot]
    simp [habs]
  · intro h16 hm habs
    subst h16
    have hslot : get_time_slot 16 minute = "4:30PM" := by
      unfold get_time_slot
      rw [if_neg (by omega), if_neg (by omega), if_pos ⟨rfl, hm⟩]
    unfold main_report
    rw [if_neg (by omega), if_pos ⟨rfl, hm⟩]
    unfold get_previous_report_data
    rw [hslot]
    simp [habs]

theorem C5_degraded_when_previous_absent_witness :
    main_report (fun _ => none) 14 0 [(⟨"Acme", 12, 55, 5⟩ : TargetMetric)] =
      (ReportData.standard [(⟨"Acme", 12, 55, 5⟩ : TargetMetric)], false) ∧
    main_report (fun _ => none) 16 45 [(⟨"Acme", 12, 55, 5⟩ : TargetMetric)] =
      (ReportData.standard [(⟨"Acme", 12, 55, 5⟩ : TargetMetric)], false) :=
  ⟨(C5_degraded_when_previous_absent (fun _ => none)
      [(⟨"Acme", 12, 55, 5⟩ : TargetMetric)] 14 0).1 rfl (by omega) rfl,
   (C5_degraded_when_previous_absent (fun _ => none)
      [(⟨"Acme", 12, 55, 5⟩ : TargetMetric)] 16 45).2 rfl (by omega) rfl⟩

/-- C10: the lookup that create_comparative_report builds from the
previous rows is last-occurrence-wins: it returns the last row of the
previous list carrying the name, and a matching current row therefore
gets its deltas computed against that last occurrence. -/
theorem C10_previous_lookup_last_occurrence (current previous : List TargetMetric)
    (hp : previous ≠ []) :
    (∀ name, previous_lookup previous name =
      (previous.filter (fun p => p.Target = name)).getLast?) ∧
    (∀ (i : ℕ) (c p : TargetMetric), current[i]? = some c →
      (previous.filter (fun q => q.Target = c.Target)).getLast? = some p →
      ∃ rows, create_comparative_report current previous = ReportData.comparative rows ∧
        rows[i]? = some
          ({ Target := c.Target, RPC := c.RPC, Incoming := c.Incoming,
             Converted := c.Converted, is_comparative := true,
             RPC_pct := some (calculate_percentage_difference c.RPC p.RPC),
             Incoming_pct := some (calculate_percentage_difference
               (c.Incoming : ℚ) (p.Incoming : ℚ)),
             Converted_pct := some (calculate_percentage_difference
               (c.Converted : ℚ) (p.Converted : ℚ)),
             Previous_RPC := some p.RPC, Previous_Incoming := some p.Incoming,
             Previous_Converted := some p.Converted } : ReportItem)) := by
  refine ⟨previous_lookup_eq_getLast previous, ?_⟩
  intro i c p hic hlast
  refine ⟨current.map (comparative_item previous),
    by simp [create_comparative_report, hp], ?_⟩
  rw [List.getElem?_map, hic]
  have hl : previous_lookup previous c.Target = some p := by
    rw [previous_lookup_eq_getLast, hlast]
  simp [comparative_item, hl]

theorem C10_previous_lookup_last_occurrence_witness :
    previous_lookup
        [(⟨"T", 1, 10, 1⟩ : TargetMetric), (⟨"T", 2, 20, 2⟩ : TargetMetric)] "T" =
      some ⟨"T", 2, 20, 2⟩ := by
  have h := (C10_previous_lookup_last_occurrence
    [(⟨"X", 0, 0, 0⟩ : TargetMetric)]
    [(⟨"T", 1, 10, 1⟩ : TargetMetric), (⟨"T", 2, 20, 2⟩ : TargetMetric)] (by simp)).1 "T"
  rw [h]
  rfl

/-! ### Currency cleaning (source lines 940 to 947 and 1351 to 1356)

The source cleans an RPC cell with
rpc_value.replace(dollar, empty).replace(comma, empty) and then applies
the Python float constructor, treating ValueError as a dropped row.
float() is modelled on the unsigned decimal literals that can reach it
here (an optional integer part, an optional dot and fraction part);
that is the whole grammar reachable after stripping, apart from inputs
on which float() raises, which are modelled as none. -/

/-- Numeric value of a digit character. -/
def digit_val (c : Char) : Nat := c.toNat - '0'.toNat

/-- Fold a digit list onto an accumulator in base 10. -/
def push_digits (n : Nat) (ds : List Char) : Nat :=
  ds.foldl (fun a c => 10 * a + digit_val c) n

/-- Value of a digit string. -/
def natOfDigits (ds : List Char) : Nat := push_digits 0 ds

/-- Split a character list at the first dot, if any. -/
def split_first_dot : List Char → List Char × Option (List Char)
  | [] => ([], none)
  | c :: rest =>
    if c = '.' then ([], some rest)
    else
      let p := split_first_dot rest
      (c :: p.1, p.2)

/-- Model of the Python float constructor on the decimal-literal
fragment: digits with at most one dot, at least one digit part
non-empty; everything else raises ValueError, modelled as none. -/
def py_float (cs : List Char) : Option ℚ :=
  let p := split_first_dot cs
  match p.2 with
  | none =>
    if !p.1.isEmpty && p.1.all Char.isDigit then some (natOfDigits p.1) else none
  | some fp =>
    if p.1.all Char.isDigit && fp.all Char.isDigit && (!p.1.isEmpty || !fp.isEmpty) then
      some ((natOfDigits p.1 : ℚ) + (natOfDigits fp : ℚ) / 10 ^ fp.length)
    else none

/-- Characters kept by the two replace calls (everything except the
dollar sign and the comma). -/
def keep_char (c : Char) : Bool := !(c = '$' || c = ',')

/-- Model of rpc_value.replace(dollar, empty).replace(comma, empty). -/
def strip_currency (s : String) : String := ⟨s.data.filter keep_char⟩

/-- The currency-cleaning step used during extraction: strip dollar
signs and commas, then parse with float(); none models ValueError. -/
def clean_rpc (s : String) : Option ℚ := py_float (strip_currency s).data

/-- A character allowed in the integer part of the spec regex. -/
def isIntChar (c : Char) : Bool := c.isDigit || c = ','

/-- Drop the optional leading dollar sign of the regex. -/
def drop_dollar (cs : List Char) : List Char :=
  if cs.head? = some '$' then cs.tail else cs

/-- Transcription of the spec regex for currency strings: an optional
dollar sign, then one or more characters among digits and commas, then
an optional dot followed by one or more digits. -/
def matches_currency (s : String) : Bool :=
  let cs := drop_dollar s.data
  let p := split_first_dot cs
  !p.1.isEmpty && p.1.all isIntChar &&
    (match p.2 with
     | none => true
     | some fp => !fp.isEmpty && fp.all Char.isDigit)

/-- Single pass of the independent decimal reader: digits accumulate
into the integer part until a dot is seen and into the fraction
afterwards; dollar signs and commas are skipped. -/
def dec_step (st : Nat × Option (Nat × Nat)) (c : Char) : Nat × Option (Nat × Nat) :=
  if c.isDigit then
    match st.2 with
    | none => (10 * st.1 + digit_val c, none)
    | some fk => (st.1, some (10 * fk.1 + digit_val c, fk.2 + 1))
  else if c = '.' then (st.1, some (st.2.getD (0, 0)))
  else st

/-- Independent reading of a currency string as a decimal number,
ignoring dollar signs and commas: a single left-to-right pass, unlike
the split-at-the-dot computation inside clean_rpc. -/
def dec_value (s : String) : ℚ :=
  let st := s.data.foldl dec_step (0, none)
  (st.1 : ℚ) + (match st.2 with
    | none => 0
    | some fk => (fk.1 : ℚ) / 10 ^ fk.2)

theorem split_first_dot_none : ∀ (cs a : List Char),
    split_first_dot cs = (a, none) → cs = a ∧ '.' ∉ a := by
  intro cs
  induction cs with
  | nil =>
    intro a h
    simp only [split_first_dot, Prod.mk.injEq] at h
    obtain ⟨h1, -⟩ := h
    subst h1
    exact ⟨rfl, by simp⟩
  | cons c rest ih =>
    intro a h
    by_cases hc : c = '.'
    · subst hc
      simp [split_first_dot] at h
    · simp only [split_first_dot, if_neg hc, Prod.mk.injEq] at h
      obtain ⟨h1, h2⟩ := h
      obtain ⟨hrest, hnotin⟩ := ih (split_first_dot rest).1 (Prod.ext_iff.mpr ⟨rfl, h2⟩)
      subst h1
      refine ⟨by rw [← hrest], ?_⟩
      intro hm
      rcases List.mem_cons.mp hm with he | hm2
      · exact hc he.symm
      · exact hnotin hm2

theorem split_first_dot_some : ∀ (cs a b : List Char),
    split_first_dot cs = (a, some b) → cs = a ++ '.' :: b ∧ '.' ∉ a := by
  intro cs
  induction cs with
  | nil =>
    intro a b h
    simp [split_first_dot] at h
  | cons c rest ih =>
    intro a b h
    by_cases hc : c = '.'
    · subst hc
      have he : (([], some rest) : List Char × Option (List Char)) = (a, some b) := by
        rw [← h]; simp [split_first_dot]
      injection he with h1 h2
      subst h1
      injection h2 with h2
      subst h2
      exact ⟨rfl, by simp⟩
    · simp only [split_first_dot, if_neg hc, Prod.mk.injEq] at h
      obtain ⟨h1, h2⟩ := h
      obtain ⟨hrest, hnotin⟩ := ih (split_first_dot rest).1 b (Prod.ext_iff.mpr ⟨rfl, h2⟩)
      subst h1
      refine ⟨by rw [List.cons_append, ← hrest], ?_⟩
      intro hm
      rcases List.mem_cons.mp hm with he | hm2
      · exact hc he.symm
      · exact hnotin hm2

theorem split_first_dot_no_dot : ∀ (cs : List Char), '.' ∉ cs →
    split_first_dot cs = (cs, none) := by
  intro cs
  induction cs with
  | nil => intro _; rfl
  | cons c rest ih =>
    intro h
    have hc : ¬ c = '.' := fun e => h (by rw [e]; exact List.mem_cons_self _ _)
    have ihr := ih (fun hm => h (List.mem_cons_of_mem _ hm))
    simp only [split_first_dot, if_neg hc, ihr]

theorem split_first_dot_append (xs ys : List Char) (h : '.' ∉ xs) :
    split_first_dot (xs ++ '.' :: ys) = (xs, some ys) := by
  induction xs with
  | nil => simp [split_first_dot]
  | cons c rest ih =>
    have hc : ¬ c = '.' := fun e => h (by rw [e]; exact List.mem_cons_self _ _)
    have ihr := ih (fun hm => h (List.mem_cons_of_mem _ hm))
    simp only [List.cons_append, split_first_dot, if_neg hc, List.append_eq, ihr]

theorem keep_char_of_digit (c : Char) (h : c.isDigit = true) : keep_char c = true := by
  unfold keep_char
  by_cases h1 : c = '$'
  · subst h1; exact Bool.noConfusion h
  · by_cases h2 : c = ','
    · subst h2; exact Bool.noConfusion h
    · simp [h1, h2]

theorem filter_keep_int_chars (ip : List Char) (h : ∀ c ∈ ip, isIntChar c = true) :
    ip.filter keep_char = ip.filter Char.isDigit := by
  apply List.filter_congr
  intro c hc
  have hic := h c hc
  by_cases hd : c.isDigit
  · rw [keep_char_of_digit c hd, hd]
  · have hcomma : c = ',' := by
      simp [isIntChar, hd] at hic
      exact hic
    subst hcomma
    rfl

theorem filter_keep_digits (l : List Char) (h : ∀ c ∈ l, c.isDigit = true) :
    l.filter keep_char = l := by
  apply List.filter_eq_self.mpr
  intro c hc
  exact keep_char_of_digit c (h c hc)

theorem foldl_dec_step_int (ip : List Char) :
    ∀ n : Nat, (∀ c ∈ ip, isIntChar c = true) →
      ip.foldl dec_step (n, none) = (push_digits n (ip.filter Char.isDigit), none) := by
  induction ip with
  | nil => intro n _; rfl
  | cons c rest ih =>
    intro n h
    have hc := h c (List.mem_cons_self _ _)
    rw [List.foldl_cons]
    by_cases hd : c.isDigit
    · have hstep : dec_step (n, none) c = (10 * n + digit_val c, none) := by
        simp [dec_step, hd]
      rw [hstep, ih _ (fun d hd' => h d (List.mem_cons_of_mem _ hd'))]
      simp [List.filter_cons, hd, push_digits]
    · have hcomma : c = ',' := by
        simp [isIntChar, hd] at hc
        exact hc
      subst hcomma
      have hstep : dec_step (n, none) ',' = (n, none) := rfl
      rw [hstep, ih _ (fun d hd' => h d (List.mem_cons_of_mem _ hd'))]
      simp [List.filter_cons]

theorem foldl_dec_step_frac (fp : List Char) :
    ∀ (n f k : Nat), (∀ c ∈ fp, c.isDigit = true) →
      fp.foldl dec_step (n, some (f, k)) = (n, some (push_digits f fp, k + fp.length)) := by
  induction fp with
  | nil => intro n f k _; simp [push_digits]
  | cons c rest ih =>
    intro n f k h
    have hc := h c (List.mem_cons_self _ _)
    rw [List.foldl_cons]
    have hstep : dec_step (n, some (f, k)) c = (n, some (10 * f + digit_val c, k + 1)) := by
      simp [dec_step, hc]
    rw [hstep, ih _ _ _ (fun d hd' => h d (List.mem_cons_of_mem _ hd'))]
    simp only [push_digits, List.foldl_cons, List.length_cons, Prod.mk.injEq,
      Option.some.injEq, true_and]
    omega

theorem drop_dollar_spec (l : List Char) :
    l = '$' :: drop_dollar l ∨ drop_dollar l = l := by
  unfold drop_dollar
  cases l with
  | nil => right; rfl
  | cons a t =>
    by_cases ha : a = '$'
    · subst ha; left; simp
    · right; simp [ha]

theorem filter_keep_drop_dollar (l : List Char) :
    l.filter keep_char = (drop_dollar l).filter keep_char := by
  rcases drop_dollar_spec l with h | h
  · conv_lhs => rw [h]
    simp [List.filter_cons, keep_char]
  · rw [h]

theorem foldl_dec_drop_dollar (l : List Char) :
    l.foldl dec_step (0, none) = (drop_dollar l).foldl dec_step (0, none) := by
  rcases drop_dollar_spec l with h | h
  · conv_lhs => rw [h]
    rfl
  · rw [h]

theorem py_float_digits (ipd : List Char) (hne : ipd ≠ [])
    (hdig : ∀ c ∈ ipd, c.isDigit = true) :
    py_float ipd = some ((natOfDigits ipd : ℚ)) := by
  simp only [py_float]
  have hdot : '.' ∉ ipd := fun hm => absurd (hdig '.' hm) (by decide)
  rw [split_first_dot_no_dot ipd hdot]
  dsimp only
  have hc : (!ipd.isEmpty && ipd.all Char.isDigit) = true := by
    rw [Bool.and_eq_true]
    refine ⟨?_, List.all_eq_true.mpr hdig⟩
    cases ipd with
    | nil => exact absurd rfl hne
    | cons a t => rfl
  rw [if_pos hc]

theorem py_float_with_frac (ipd fp : List Char)
    (hdig : ∀ c ∈ ipd, c.isDigit = true) (hfp : ∀ c ∈ fp, c.isDigit = true)
    (hfne : fp ≠ []) :
    py_float (ipd ++ '.' :: fp) =
      some ((natOfDigits ipd : ℚ) + (natOfDigits fp : ℚ) / 10 ^ fp.length) := by
  simp only [py_float]
  have hdot : '.' ∉ ipd := fun hm => absurd (hdig '.' hm) (by decide)
  rw [split_first_dot_append ipd fp hdot]
  dsimp only
  have hc : (ipd.all Char.isDigit && fp.all Char.isDigit &&
      (!ipd.isEmpty || !fp.isEmpty)) = true := by
    rw [Bool.and_eq_true, Bool.and_eq_true, Bool.or_eq_true]
    refine ⟨⟨List.all_eq_true.mpr hdig, List.all_eq_true.mpr hfp⟩, Or.inr ?_⟩
    cases fp with
    | nil => exact absurd rfl hfne
    | cons a t => rfl
  rw [if_pos hc]

theorem dec_value_int (s : String) (ip : List Char)
    (hds : drop_dollar s.data = ip) (hallp : ∀ c ∈ ip, isIntChar c = true) :
    dec_value s = (natOfDigits (ip.filter Char.isDigit) : ℚ) := by
  simp only [dec_value]
  rw [foldl_dec_drop_dollar, hds, foldl_dec_step_int ip 0 hallp]
  simp [natOfDigits]

theorem dec_value_frac (s : String) (ip fp : List Char)
    (hds : drop_dollar s.data = ip ++ '.' :: fp)
    (hallp : ∀ c ∈ ip, isIntChar c = true) (hfp : ∀ c ∈ fp, c.isDigit = true) :
    dec_value s = (natOfDigits (ip.filter Char.isDigit) : ℚ) +
      (natOfDigits fp : ℚ) / 10 ^ fp.length := by
  simp only [dec_value]
  rw [foldl_dec_drop_dollar, hds, List.foldl_append, foldl_dec_step_int ip 0 hallp,
    List.foldl_cons]
  have hstep : dec_step (push_digits 0 (ip.filter Char.isDigit), none) '.' =
      (push_digits 0 (ip.filter Char.isDigit), some (0, 0)) := rfl
  rw [hstep, foldl_dec_step_frac fp _ 0 0 hfp]
  simp [natOfDigits]

/-- C7 as stated fails, but restricted to match strings containing at
least one digit it holds: the cleaning step strips every dollar sign
and comma and parses the remaining characters as the decimal number
they spell (dec_value reads that number in an independent single
pass over the original string). -/
theorem C7_currency_cleaning_parses (s : String)
    (hm : matches_currency s = true)
    (hd : s.data.any Char.isDigit = true) :
    clean_rpc s = some (dec_value s) := by
  simp only [matches_currency] at hm
  cases hsplit : split_first_dot (drop_dollar s.data) with
  | mk ip fo =>
    rw [hsplit] at hm
    dsimp only at hm
    cases fo with
    | none =>
      rw [Bool.and_eq_true, Bool.and_eq_true] at hm
      obtain ⟨⟨hne, hall⟩, -⟩ := hm
      have hallp : ∀ c ∈ ip, isIntChar c = true := List.all_eq_true.mp hall
      obtain ⟨hcs, -⟩ := split_first_dot_none (drop_dollar s.data) ip hsplit
      have hipd_digit : ∀ c ∈ ip.filter Char.isDigit, c.isDigit = true :=
        fun c hc => (List.mem_filter.mp hc).2
      have hstrip : (strip_currency s).data = ip.filter Char.isDigit := by
        show s.data.filter keep_char = _
        rw [filter_keep_drop_dollar, hcs]
        exact filter_keep_int_chars ip hallp
      have hipd_ne : ip.filter Char.isDigit ≠ [] := by
        rcases List.any_eq_true.mp hd with ⟨d, hdm, hdd⟩
        have hdip : d ∈ ip := by
          rw [← hcs]
          rcases drop_dollar_spec s.data with h | h
          · rw [h] at hdm
            rcases List.mem_cons.mp hdm with he | hmem
            · rw [he] at hdd; exact absurd hdd (by decide)
            · exact hmem
          · rw [h]; exact hdm
        intro hnil
        have : d ∈ ip.filter Char.isDigit := List.mem_filter.mpr ⟨hdip, hdd⟩
        rw [hnil] at this
        exact List.not_mem_nil d this
      unfold clean_rpc
      rw [hstrip, py_float_digits _ hipd_ne hipd_digit, dec_value_int s ip hcs hallp]
    | some fp =>
      rw [Bool.and_eq_true, Bool.and_eq_true, Bool.and_eq_true] at hm
      obtain ⟨⟨hne, hall⟩, hfne, hfall⟩ := hm
      have hallp : ∀ c ∈ ip, isIntChar c = true := List.all_eq_true.mp hall
      have hfpd : ∀ c ∈ fp, c.isDigit = true := List.all_eq_true.mp hfall
      have hfne' : fp ≠ [] := by
        intro h
        rw [h] at hfne
        exact Bool.noConfusion hfne
      obtain ⟨hcs, -⟩ := split_first_dot_some (drop_dollar s.data) ip fp hsplit
      have hstrip : (strip_currency s).data = ip.filter Char.isDigit ++ '.' :: fp := by
        show s.data.filter keep_char = _
        rw [filter_keep_drop_dollar, hcs, List.filter_append,
          filter_keep_int_chars ip hallp]
        congr 1
        rw [List.filter_cons]
        simp only [keep_char, show (('.' = '$' || '.' = ',') : Bool) = false from rfl,
          Bool.not_false, if_true]
        rw [filter_keep_digits fp hfpd]
      unfold clean_rpc
      rw [hstrip,
        py_float_with_frac _ _ (fun c hc => (List.mem_filter.mp hc).2) hfpd hfne',
        dec_value_frac s ip fp hcs hallp hfpd]

/-- C7 counterexample: the comma alone matches the spec regex (its
integer-part character class admits a string of commas with no digit),
but the cleaning step strips it to the empty string, on which float()
raises ValueError, so no float is produced. -/
theorem C7_counterexample_comma_only :
    matches_currency "," = true ∧ clean_rpc "," = none := by
  exact ⟨rfl, rfl⟩

theorem C7_currency_cleaning_parses_witness :
    matches_currency "$1,234.56" = true ∧
    ("$1,234.56" : String).data.any Char.isDigit = true ∧
    clean_rpc "$1,234.56" = some (dec_value "$1,234.56") :=
  ⟨rfl, rfl, C7_currency_cleaning_parses "$1,234.56" rfl rfl⟩

/-! ### CSV extraction

read_csv_data (source lines 878 to 999) and the inline CSV parsing of
get_csv_values (source lines 1295 to 1430). pandas.read_csv is modelled
on the fragment these claims exercise: with default settings an empty
field becomes NaN, a column whose fields are all nonnegative integer
literals becomes an integer column, a column whose fields all parse as
decimal literals becomes a float column (empty fields NaN), and any
other column keeps its fields as strings, with empty fields still NaN. -/

/-- A pandas cell: NaN, a string, an integer or a float. -/
inductive PyVal where
  | na
  | s (v : String)
  | i (v : ℤ)
  | f (v : ℚ)
deriving DecidableEq, Repr

/-- Model of pd.isna on a cell. -/
def py_isna : PyVal → Bool
  | .na => true
  | _ => false

/-- Model of Python str() of a cell; NaN renders as the string nan.
The claims only apply it to string and NaN cells. -/
def py_str : PyVal → String
  | .na => "nan"
  | .s v => v
  | .i v => toString v
  | .f v => toString v

/-- Is the raw field a nonnegative integer literal? -/
def is_int_string (r : String) : Bool := !r.data.isEmpty && r.data.all Char.isDigit

/-- Does the raw field parse as a decimal literal? -/
def is_float_string (r : String) : Bool := (py_float r.data).isSome

/-- Column dtype inference of read_csv on one column of raw fields. -/
def infer_column (raws : List String) : List PyVal :=
  if raws.all (fun r => is_int_string r) then
    raws.map (fun r => .i ((natOfDigits r.data : ℤ)))
  else if raws.all (fun r => r = "" || is_float_string r) then
    raws.map (fun r => if r = "" then .na else .f ((py_float r.data).getD 0))
  else
    raws.map (fun r => if r = "" then .na else .s r)

/-- A loaded data frame: column names and converted cell rows. -/
structure Df where
  columns : List String
  rows : List (List PyVal)
deriving Repr

/-- Model of pd.read_csv applied to headers and raw string rows. -/
def read_csv (headers : List String) (raws : List (List String)) : Df :=
  let cols := (List.range headers.length).map (fun j =>
    infer_column (raws.map (fun row => row.getD j "")))
  { columns := headers,
    rows := (List.range raws.length).map (fun i =>
      cols.map (fun col => col.getD i .na)) }

/-- Access row[col] by column name. -/
def row_get (cols : List String) (row : List PyVal) (c : String) : PyVal :=
  ((cols.zip row).find? (fun p => p.1 == c)).elim .na (fun p => p.2)

/-- The first exact-lowercase-match loop of read_csv_data assigns
without break, so the last exact match wins. -/
def rcd_find_exact (cols : List String) (name : String) : Option String :=
  cols.reverse.find? (fun c => py_lower c == name)

/-- The partial-match fallback loops of read_csv_data break on the
first hit. -/
def rcd_find_substr (cols : List String) (sub : String) : Option String :=
  cols.find? (fun c => has_substr sub.data (py_lower c).data)

def rcd_target_column (cols : List String) : Option String :=
  (rcd_find_exact cols "target").orElse (fun _ => rcd_find_substr cols "target")

def rcd_rpc_column (cols : List String) : Option String :=
  (rcd_find_exact cols "rpc").orElse (fun _ => rcd_find_substr cols "rpc")

/-- Both parsing paths look for an exact converted column, first hit. -/
def find_converted_column (cols : List String) : Option String :=
  cols.find? (fun c => py_lower c == "converted")

/-- Accepted header variants for the incoming-count column. -/
def incoming_names : List String :=
  ["incoming", "calls", "call count", "inbound", "inbound calls"]

/-- Model of Python int() on a cell (integers pass, floats truncate,
digit strings parse, with an optional leading minus); none models the
ValueError and TypeError paths. -/
def py_int_cell : PyVal → Option ℤ
  | .i v => some v
  | .f v => some (py_trunc v)
  | .s v =>
    if is_int_string v then some ((natOfDigits v.data : ℤ))
    else if v.data.head? = some '-' && is_int_string ⟨v.data.tail⟩ then
      some (-(natOfDigits v.data.tail : ℤ))
    else none
  | .na => none

/-- The fallback attempt int(float(str(value).replace(comma, empty)))
of the incoming-count parsing. -/
def py_int_float_str (v : PyVal) : Option ℤ :=
  (py_float ((py_str v).data.filter (fun c => !(c = ',')))).map py_trunc

/-- The incoming-count scan of the source: over the columns whose
lowered name is an accepted variant, the first one whose value parses
by either attempt supplies the count and breaks the loop; a column
that fails both attempts leaves zero and continues scanning. -/
def incoming_scan (cols : List String) (row : List PyVal) : ℤ :=
  (((cols.filter (fun c => incoming_names.contains (py_lower c))).filterMap
      (fun c => (py_int_cell (row_get cols row c)).orElse
        (fun _ => py_int_float_str (row_get cols row c)))).headD 0)

/-- The converted-value parsing of the source loop body (string cells
go through float() after comma removal, numeric cells truncate,
failures default to zero). -/
def parse_converted : PyVal → ℤ
  | .s str => ((py_float (str.data.filter (fun c => !(c = ',')))).map py_trunc).getD 0
  | .i n => n
  | .f q => py_trunc q
  | .na => 0

/-- The converted extraction including the isna guard and the
column-missing default. -/
def converted_value (cols : List String) (row : List PyVal) (ccol : Option String) : ℤ :=
  match ccol with
  | some c => if py_isna (row_get cols row c) then 0 else parse_converted (row_get cols row c)
  | none => 0

/-- The blank-or-nan sentinel substitution shared by both parsing
paths: NaN, the literal string nan (case-insensitive) and
whitespace-only names become the totals sentinel. -/
def sentinel_name (v : PyVal) : String :=
  if py_isna v || py_lower (py_str v) == "nan" || py_trim (py_str v) == "" then
    "Totals (all targets average)"
  else py_str v

/-- The per-row body of the extraction loop of read_csv_data. Note the
early guard: a row whose target cell or RPC cell is NaN is skipped
before the sentinel substitution can see it. -/
def rcd_row (cols : List String) (tcol rcol : String) (ccol : Option String)
    (row : List PyVal) : Option TargetMetric :=
  let tn := row_get cols row tcol
  let rv := row_get cols row rcol
  if py_isna tn || py_isna rv then none
  else
    let rpcq : Option ℚ :=
      match rv with
      | .s str => py_float (str.data.filter keep_char)
      | .i n => some ((n : ℚ))
      | .f q => some q
      | .na => none
    match rpcq with
    | none => none
    | some rpcv =>
      some { Target := sentinel_name tn, RPC := rpcv,
             Incoming := incoming_scan cols row,
             Converted := converted_value cols row ccol }

/-- Embedding of read_csv_data on a loaded frame. -/
def read_csv_data (df : Df) : List TargetMetric :=
  match rcd_target_column df.columns, rcd_rpc_column df.columns with
  | some tcol, some rcol =>
    df.rows.filterMap (rcd_row df.columns tcol rcol (find_converted_column df.columns))
  | _, _ => []

/-- Target-column choice of the inline parsing in get_csv_values:
first accepted name variant, else the first column. -/
def gcv_target_column (cols : List String) : String :=
  (cols.find? (fun c =>
    (["target", "campaign", "campaign name", "name"].contains (py_lower c)))).getD
    (cols.headD "")

/-- RPC-column choice of the inline parsing: first column whose lowered
name contains rpc, else the first containing an accepted revenue
keyword. -/
def gcv_rpc_column (cols : List String) : Option String :=
  (cols.find? (fun c => has_substr "rpc".data (py_lower c).data)).orElse
    (fun _ => cols.find? (fun c =>
      ["revenue", "profit", "earning", "value"].any
        (fun k => has_substr k.data (py_lower c).data)))

/-- The RPC cleaning of the inline parsing: an object column is
rendered with str(), stripped of dollars and commas and parsed with
coercing to_numeric (none models NaN, dropped by dropna); numeric
cells pass through. -/
def gcv_rpc_value : PyVal → Option ℚ
  | .i n => some ((n : ℚ))
  | .f q => some q
  | v => py_float ((py_str v).data.filter keep_char)

/-- Embedding of the CSV-processing tail of get_csv_values: none
models the retry path (no usable RPC column, or no rows surviving
dropna); otherwise one TargetMetric per surviving row, with the same
incoming, converted and sentinel logic as read_csv_data but no early
NaN guard on the target name. -/
def get_csv_values_parse (df : Df) : Option (List TargetMetric) :=
  match gcv_rpc_column df.columns with
  | none => none
  | some rcol =>
    let tcol := gcv_target_column df.columns
    let ccol := find_converted_column df.columns
    let kept := df.rows.filterMap (fun row =>
      (gcv_rpc_value (row_get df.columns row rcol)).map (fun q => (row, q)))
    if kept.isEmpty then none
    else some (kept.map (fun p =>
      { Target := sentinel_name (row_get df.columns p.1 tcol),
        RPC := p.2,
        Incoming := incoming_scan df.columns p.1,
        Converted := converted_value df.columns p.1 ccol }))

/-- The CSV of the C6 test scenario. -/
def test_csv_df : Df :=
  read_csv ["Target", "RPC", "Incoming", "Converted"]
    [["A", "$15.75", "120", "30"], ["", "$8.00", "5", "1"]]

/-- C6: the claim fails on read_csv_data, the function it cites: there
the early NaN guard drops the blank-named row (pandas reads the empty
Target field as NaN) before the sentinel substitution, whose own isna
test it thereby makes unreachable, so the test CSV yields one row; the
live inline extraction in get_csv_values, which main actually runs,
has no such guard and yields the two claimed rows, the second carrying
the totals sentinel. -/
theorem C6_blank_name_row_extraction :
    read_csv_data test_csv_df =
      [{ Target := "A", RPC := 15.75, Incoming := 120, Converted := 30 }] ∧
    get_csv_values_parse test_csv_df =
      some [{ Target := "A", RPC := 15.75, Incoming := 120, Converted := 30 },
            { Target := "Totals (all targets average)", RPC := 8,
              Incoming := 5, Converted := 1 }] := by
  have h15 : natOfDigits ['1', '5'] = 15 := by decide
  have h75 : natOfDigits ['7', '5'] = 75 := by decide
  have h8 : natOfDigits ['8'] = 8 := by decide
  have h00 : natOfDigits ['0', '0'] = 0 := by decide
  constructor
  · have h1 : read_csv_data test_csv_df =
        [{ Target := "A",
           RPC := (natOfDigits ['1', '5'] : ℚ) + (natOfDigits ['7', '5'] : ℚ) / 10 ^ 2,
           Incoming := 120, Converted := 30 }] := rfl
    rw [h1, h15, h75]
    norm_num
  · have h2 : get_csv_values_parse test_csv_df =
        some [{ Target := "A",
                RPC := (natOfDigits ['1', '5'] : ℚ) + (natOfDigits ['7', '5'] : ℚ) / 10 ^ 2,
                Incoming := 120, Converted := 30 },
              { Target := "Totals (all targets average)",
                RPC := (natOfDigits ['8'] : ℚ) + (natOfDigits ['0', '0'] : ℚ) / 10 ^ 2,
                Incoming := 5, Converted := 1 }] := rfl
    rw [h2, h15, h75, h8, h00]
    norm_num

/-! ### get_csv_values retry policy (source lines 1222 to 1449)

The browser pipeline is abstracted as an attempt oracle: attempt k is
the outcome of the whole login, navigation, export and parse chain run
in the fresh browser session of invocation number k (every
re-invocation closes the old browser and passes page=None,
start_fresh=True and retry_count incremented); some data models a
successful extraction and none models every failure exit (login,
navigation, export, column resolution, empty frame, or an exception),
each of which takes the same retry branch in the source. -/

/-- The fixed retry bound of the source. -/
def MAX_RETRIES : Nat := 4

/-- Embedding of the retry skeleton of get_csv_values: on failure,
re-invoke the whole pipeline with the retry counter incremented while
it is strictly below MAX_RETRIES, else return the empty list. -/
def get_csv_values (attempt : Nat → Option (List TargetMetric)) (retry_count : Nat) :
    List TargetMetric :=
  match attempt retry_count with
  | some data => data
  | none =>
    if retry_count < MAX_RETRIES then get_csv_values attempt (retry_count + 1)
    else []
termination_by MAX_RETRIES + 1 - retry_count
decreasing_by simp [MAX_RETRIES] at *; omega

/-- The behaviour the retry policy is claimed to have: the data of the
first successful attempt among retry counters rc..4, else empty. -/
def first_attempt_result (attempt : Nat → Option (List TargetMetric)) (rc : Nat) :
    List TargetMetric :=
  match (List.range' rc (5 - rc)).find? (fun k => (attempt k).isSome) with
  | some k => (attempt k).getD []
  | none => []

theorem get_csv_values_eq (attempt : Nat → Option (List TargetMetric)) (rc : Nat) :
    get_csv_values attempt rc =
      match attempt rc with
      | some data => data
      | none => if rc < MAX_RETRIES then get_csv_values attempt (rc + 1) else [] := by
  rw [get_csv_values]

theorem get_csv_values_char (n : Nat) :
    ∀ (attempt : Nat → Option (List TargetMetric)) (rc : Nat), rc + n = 4 →
      get_csv_values attempt rc = first_attempt_result attempt rc := by
  induction n with
  | zero =>
    intro attempt rc h
    have h4 : rc = 4 := by omega
    subst h4
    rw [get_csv_values_eq]
    have hr : (List.range' 4 (5 - 4)).find? (fun k => (attempt k).isSome) =
        (if (attempt 4).isSome then some 4 else none) := by
      rw [show (5 - 4 : Nat) = 1 from rfl]
      rw [show List.range' 4 1 = [4] from rfl]
      simp only [List.find?]
      cases h4 : (attempt 4).isSome <;> simp [h4]
    cases ha : attempt 4 with
    | some d => simp [first_attempt_result, hr, ha]
    | none => simp [first_attempt_result, hr, ha, MAX_RETRIES]
  | succ n ih =>
    intro attempt rc h
    have hlt : rc < 4 := by omega
    have hrange : List.range' rc (5 - rc) = rc :: List.range' (rc + 1) (5 - (rc + 1)) := by
      have h5 : 5 - rc = (5 - (rc + 1)) + 1 := by omega
      rw [h5, List.range'_succ]
    rw [get_csv_values_eq]
    cases ha : attempt rc with
    | some d =>
      simp [first_attempt_result, hrange, List.find?, ha]
    | none =>
      have hif : rc < MAX_RETRIES := by simpa [MAX_RETRIES] using hlt
      rw [if_pos hif, ih attempt (rc + 1) (by omega)]
      simp [first_attempt_result, hrange, List.find?, ha]

/-- C9: the retry skeleton of get_csv_values terminates with a bounded
number of fresh-session attempts: starting at retry counter rc below
the bound it returns the data of the first successful attempt among
counters rc..4 and the empty list when all five fail (never an
exception); at or beyond the bound the current attempt is the last
one, so no re-invocation happens once the counter reaches 4. -/
theorem C9_get_csv_values_retry_bound (attempt : Nat → Option (List TargetMetric))
    (rc : Nat) :
    (rc ≤ 4 → get_csv_values attempt rc = first_attempt_result attempt rc) ∧
    ((∀ k, k ≤ 4 → attempt k = none) → get_csv_values attempt 0 = []) ∧
    (4 ≤ rc → get_csv_values attempt rc = (attempt rc).getD []) := by
  refine ⟨?_, ?_, ?_⟩
  · intro hrc
    exact get_csv_values_char (4 - rc) attempt rc (by omega)
  · intro hall
    rw [get_csv_values_char 4 attempt 0 rfl]
    have hnone : (List.range' 0 (5 - 0)).find? (fun k => (attempt k).isSome) = none := by
      rw [List.find?_eq_none]
      intro k hk
      have hk4 : k ≤ 4 := by
        have := List.mem_range'_1.mp hk
        omega
      rw [hall k hk4]
      simp
    simp [first_attempt_result, hnone]
  · intro hrc
    rw [get_csv_values_eq]
    cases ha : attempt rc with
    | some d => simp
    | none =>
      have : ¬ rc < MAX_RETRIES := by simp [MAX_RETRIES]; omega
      rw [if_neg this]
      simp

theorem C9_get_csv_values_retry_bound_witness :
    get_csv_values
      (fun k => if k = 2 then some [(⟨"Acme", 10, 50, 5⟩ : TargetMetric)] else none) 0 =
      [(⟨"Acme", 10, 50, 5⟩ : TargetMetric)] ∧
    get_csv_values (fun _ => none) 0 = [] ∧
    get_csv_values (fun _ => none) 7 = [] := by
  refine ⟨?_, ?_, ?_⟩
  · have h := (C9_get_csv_values_retry_bound
      (fun k => if k = 2 then some [(⟨"Acme", 10, 50, 5⟩ : TargetMetric)] else none) 0).1
      (by omega)
    rw [h]
    rfl
  · exact (C9_get_csv_values_retry_bound (fun _ => none) 0).2.1 (fun k _ => rfl)
  · exact ((C9_get_csv_values_retry_bound (fun _ => none) 7).2.2 (by omega)).trans rfl

/-! ### send_slack_notification (source lines 1145 to 1220)

The network transport is out of scope: the sender is modelled as the
ordered list of payload text fields it posts, assuming every post
returns status 200 and the webhook is configured. Python str.split on
a one-character separator is List.splitOn, str.split with the
two-character separator and maxsplit one is split_first_blank, and the
str.strip() truthiness test on a chunk is the existence of a
non-whitespace character. -/

/-- Model of the Python str.join with a newline separator. -/
def join_nl : List String → String
  | [] => ""
  | [s] => s
  | s :: rest => s ++ "\n" ++ join_nl rest

/-- Model of message.split of the two-newline separator with maxsplit
one: the part before the first occurrence, and the part after it when
there is one. -/
def split_first_blank : List Char → List Char × Option (List Char)
  | [] => ([], none)
  | c :: rest =>
    if c = '\n' ∧ rest.head? = some '\n' then ([], some rest.tail)
    else
      let p := split_first_blank rest
      (c :: p.1, p.2)

/-- The chunk loop of the source: for i in range(0, len, 10), slice ten
target lines, skip the chunk when its joined text strips to nothing,
otherwise post it under a continued header; n is the total line count
used in the headers. -/
def chunk_messages (n : Nat) (target_lines : List String) : List String :=
  (List.range ((target_lines.length + 9) / 10)).filterMap (fun j =>
    let i := 10 * j
    let chunk := (target_lines.drop i).take 10
    let chunk_message := join_nl chunk
    if chunk_message.data.all Char.isWhitespace then none
    else some ("*Targets (continued, " ++ toString (i + 1) ++ "-" ++
      toString (min (i + 10) n) ++ " of " ++ toString n ++ ")*\n\n" ++ chunk_message))

/-- Embedding of send_slack_notification as the list of posted texts:
a message over 3000 characters is split at the first blank line into a
header (reported with the target-line count) and chunked target lines;
a shorter message is posted as is. -/
def send_slack_notification (message : String) : List String :=
  if message.length > 3000 then
    let p := split_first_blank message.data
    let header : String := ⟨p.1⟩ ++ "\n\n"
    let targets_part : String := ⟨p.2.getD []⟩
    let target_lines := (targets_part.data.splitOn '\n').map String.mk
    (header ++ "*Sending data in multiple messages due to size (" ++
        toString target_lines.length ++ " targets)*")
      :: chunk_messages target_lines.length target_lines
  else [message]

/-- Does the character list contain two consecutive newlines? -/
def has_blank : List Char → Bool
  | [] => false
  | c :: rest => (c = '\n' && rest.head? = some ('\n' : Char)) || has_blank rest

/-- The ten-line slices the chunk loop ranges over. -/
def chunks10 (l : List String) : List (List String) :=
  (List.range ((l.length + 9) / 10)).map (fun j => (l.drop (10 * j)).take 10)

/-- Building a message from a blank-free header and newline-free lines
(how the comparative report text is assembled in main). -/
def build_message (header : String) (lines : List String) : String :=
  header ++ "\n\n" ++ join_nl lines

theorem split_first_blank_append (t : List Char) :
    ∀ xs : List Char, has_blank xs = false → xs.getLast? ≠ some '\n' →
      split_first_blank (xs ++ '\n' :: '\n' :: t) = (xs, some t) := by
  intro xs
  induction xs with
  | nil =>
    intro _ _
    simp [split_first_blank]
  | cons c rest ih =>
    intro hb hl
    rw [List.cons_append, split_first_blank.eq_def]
    dsimp only
    cases rest with
    | nil =>
      have hc : c ≠ '\n' := by
        intro he
        exact hl (by rw [he]; rfl)
      rw [List.nil_append, if_neg (by simp [hc])]
      rw [show split_first_blank ('\n' :: '\n' :: t) = ([], some t) from by
        simp [split_first_blank]]
    | cons r rs =>
      split_ifs with hif
      · exfalso
        simp only [List.cons_append, List.head?_cons, Option.some.injEq] at hif
        rw [has_blank] at hb
        simp [hif.1, hif.2] at hb
      · have hb2 : has_blank (r :: rs) = false := by
          rw [has_blank, Bool.or_eq_false_iff] at hb
          exact hb.2
        have hl2 : (r :: rs).getLast? ≠ some '\n' := by
          rwa [List.getLast?_cons_cons] at hl
        rw [ih hb2 hl2]

theorem join_nl_splits : ∀ lines : List String, lines ≠ [] →
    (∀ l ∈ lines, ('\n' : Char) ∉ l.data) →
    (((join_nl lines).data.splitOn '\n').map String.mk) = lines := by
  intro lines
  induction lines with
  | nil => intro h _; exact absurd rfl h
  | cons s rest ih =>
    intro _ hnl
    cases rest with
    | nil =>
      have hs : ∀ x ∈ s.data, ¬((x == '\n') = true) := by
        intro x hx hbe
        exact hnl s (List.mem_cons_self _ _) (beq_iff_eq.mp hbe ▸ hx)
      show ((join_nl [s]).data.splitOn '\n').map String.mk = [s]
      rw [show join_nl [s] = s from rfl]
      rw [List.splitOn, List.splitOnP_eq_single _ _ hs]
      simp
    | cons l2 t =>
      have hdata : (join_nl (s :: l2 :: t)).data =
          s.data ++ '\n' :: (join_nl (l2 :: t)).data := by
        rw [show join_nl (s :: l2 :: t) = s ++ "\n" ++ join_nl (l2 :: t) from rfl]
        rw [String.data_append, String.data_append]
        simp
      have hs : ∀ x ∈ s.data, ¬((x == '\n') = true) := by
        intro x hx hbe
        exact hnl s (List.mem_cons_self _ _) (beq_iff_eq.mp hbe ▸ hx)
      rw [hdata, List.splitOn, List.splitOnP_first _ _ hs '\n' (by simp)]
      rw [List.map_cons]
      have hrest := ih (by simp) (fun l hl => hnl l (List.mem_cons_of_mem _ hl))
      rw [List.splitOn] at hrest
      rw [hrest]

theorem range_chunks_join :
    ∀ (m : Nat) (l : List String), l.length ≤ 10 * m →
      ((List.range m).map (fun j => (l.drop (10 * j)).take 10)).flatten = l := by
  intro m
  induction m with
  | zero =>
    intro l h
    simp at h
    simp [List.range_zero, h]
  | succ m ih =>
    intro l h
    rw [List.range_succ_eq_map, List.map_cons, List.flatten_cons, List.map_map]
    have hmap : ((fun j => (l.drop (10 * j)).take 10) ∘ Nat.succ) =
        fun j => ((l.drop 10).drop (10 * j)).take 10 := by
      funext j
      show (l.drop (10 * Nat.succ j)).take 10 = ((l.drop 10).drop (10 * j)).take 10
      rw [List.drop_drop]
      rw [show 10 * Nat.succ j = 10 + 10 * j from by omega]
    rw [hmap]
    have hlen : (l.drop 10).length ≤ 10 * m := by
      rw [List.length_drop]
      omega
    rw [ih (l.drop 10) hlen]
    simp

theorem filterMap_length_all_some {α β : Type} (f : α → Option β) :
    ∀ l : List α, (∀ x ∈ l, (f x).isSome = true) → (l.filterMap f).length = l.length := by
  intro l
  induction l with
  | nil => intro _; rfl
  | cons a t ih =>
    intro h
    rw [List.filterMap_cons]
    cases hf : f a with
    | none =>
      have := h a (List.mem_cons_self _ _)
      rw [hf] at this
      exact Bool.noConfusion this
    | some b =>
      simp only [List.length_cons, ih (fun x hx => h x (List.mem_cons_of_mem _ hx))]

/-- General shape of a long-message send: split at the first blank
line, one header message carrying the target-line count, then the
chunk loop output. -/
theorem send_slack_long_message_spec (header : String) (lines : List String)
    (hhb : has_blank header.data = false)
    (hhl : header.data.getLast? ≠ some '\n')
    (hlne : lines ≠ [])
    (hnl : ∀ l ∈ lines, ('\n' : Char) ∉ l.data)
    (hws : ∀ l ∈ lines, l.data.any (fun c => !c.isWhitespace) = true)
    (hlen : (build_message header lines).length > 3000) :
    send_slack_notification (build_message header lines) =
      (header ++ "\n\n" ++ "*Sending data in multiple messages due to size (" ++
        toString lines.length ++ " targets)*")
      :: chunk_messages lines.length lines ∧
    (chunk_messages lines.length lines).length = (lines.length + 9) / 10 ∧
    (∀ c ∈ chunks10 lines, c.length ≤ 10) ∧
    (chunks10 lines).flatten = lines := by
  have hdata : (build_message header lines).data =
      header.data ++ '\n' :: '\n' :: (join_nl lines).data := by
    show ((header ++ "\n\n") ++ join_nl lines).data = _
    rw [String.data_append, String.data_append]
    simp [List.append_assoc]
  have hsplit : split_first_blank (build_message header lines).data =
      (header.data, some (join_nl lines).data) := by
    rw [hdata]
    exact split_first_blank_append _ header.data hhb hhl
  have hkeep : ∀ j ∈ List.range ((lines.length + 9) / 10),
      ¬((join_nl ((lines.drop (10 * j)).take 10)).data.all Char.isWhitespace = true) := by
    intro j hj
    have hjk : j < (lines.length + 9) / 10 := List.mem_range.mp hj
    have hlt : 10 * j < lines.length := by omega
    have hpos : 0 < ((lines.drop (10 * j)).take 10).length := by
      simp only [List.length_take, List.length_drop]
      omega
    obtain ⟨l0, cr, hsc⟩ := List.exists_cons_of_ne_nil (List.length_pos.mp hpos)
    have hl0 : l0 ∈ lines := by
      have h1 : l0 ∈ (lines.drop (10 * j)).take 10 := by
        rw [hsc]
        exact List.mem_cons_self _ _
      exact (List.drop_sublist (10 * j) lines).subset
        ((List.take_sublist 10 _).subset h1)
    obtain ⟨ch, hchm, hchw⟩ := List.any_eq_true.mp (hws l0 hl0)
    intro hall
    have hmem : ch ∈ (join_nl ((lines.drop (10 * j)).take 10)).data := by
      rw [hsc]
      cases cr with
      | nil => exact hchm
      | cons b bs =>
        show ch ∈ (l0 ++ "\n" ++ join_nl (b :: bs)).data
        rw [String.data_append, String.data_append]
        exact List.mem_append.mpr (Or.inl (List.mem_append.mpr (Or.inl hchm)))
    have hch := List.all_eq_true.mp hall ch hmem
    rw [hch] at hchw
    exact Bool.noConfusion hchw
  refine ⟨?_, ?_, ?_, ?_⟩
  · unfold send_slack_notification
    rw [if_pos hlen, hsplit]
    dsimp only [Option.getD]
    rw [join_nl_splits lines hlne hnl]
  · have hlen_eq : (chunk_messages lines.length lines).length =
        (List.range ((lines.length + 9) / 10)).length := by
      unfold chunk_messages
      apply filterMap_length_all_some
      intro j hj
      dsimp only
      rw [if_neg (hkeep j hj)]
      rfl
    rw [hlen_eq, List.length_range]
  · intro c hc
    obtain ⟨j, -, rfl⟩ := List.mem_map.mp hc
    exact List.length_take_le _ _
  · exact range_chunks_join _ lines (by omega)

/-- C8 (amended): a message over 3000 characters, built from a header
free of blank lines and not ending in a newline plus newline-free
non-blank target lines, is split at the first blank line; the sender
posts one header message stating the number of target lines (not the
number of chunks) and then ceil(n/10) chunk messages over the ten-line
slices of the target lines, which cover all of them in order. -/
theorem C8_long_message_chunking (header : String) (lines : List String)
    (hhb : has_blank header.data = false)
    (hhl : header.data.getLast? ≠ some '\n')
    (hlne : lines ≠ [])
    (hnl : ∀ l ∈ lines, ('\n' : Char) ∉ l.data)
    (hws : ∀ l ∈ lines, l.data.any (fun c => !c.isWhitespace) = true)
    (hlen : (build_message header lines).length > 3000) :
    send_slack_notification (build_message header lines) =
      (header ++ "\n\n" ++ "*Sending data in multiple messages due to size (" ++
        toString lines.length ++ " targets)*")
      :: chunk_messages lines.length lines ∧
    (chunk_messages lines.length lines).length = (lines.length + 9) / 10 ∧
    (∀ c ∈ chunks10 lines, c.length ≤ 10) ∧
    (chunks10 lines).flatten = lines :=
  send_slack_long_message_spec header lines hhb hhl hlne hnl hws hlen

/-- Concrete header for the C8 scenario: 39 characters, no blank line. -/
def header39 : String := ⟨List.replicate 39 'h'⟩

/-- One concrete target line of 123 characters. -/
def x123 : String := ⟨List.replicate 123 'x'⟩

/-- Concrete target lines for the C8 scenario: 40 lines of 123
characters, which joined under the 39-character header and the blank
line give a message of exactly 5000 characters. -/
def lines40 : List String := List.replicate 40 x123

theorem join_nl_replicate_length (s : String) :
    ∀ k : Nat, (join_nl (List.replicate (k + 1) s)).length = (k + 1) * s.length + k := by
  intro k
  induction k with
  | zero =>
    rw [show List.replicate 1 s = [s] from rfl, show join_nl [s] = s from rfl]
    ring
  | succ k ih =>
    have hstep : join_nl (List.replicate (k + 1 + 1) s) =
        s ++ "\n" ++ join_nl (List.replicate (k + 1) s) := rfl
    rw [hstep, String.length_append, String.length_append, ih,
      show ("\n" : String).length = 1 from rfl]
    ring

set_option maxRecDepth 10000 in
theorem build_message_scenario_length : (build_message header39 lines40).length = 5000 := by
  show ((header39 ++ "\n\n") ++ join_nl lines40).length = 5000
  rw [String.length_append, String.length_append,
    show lines40 = List.replicate (39 + 1) x123 from rfl,
    join_nl_replicate_length x123 39,
    show x123.length = 123 from by decide,
    show header39.length = 39 from by decide,
    show ("\n\n" : String).length = 2 from rfl]

set_option maxRecDepth 10000 in
theorem C8_long_message_chunking_witness :
    (build_message header39 lines40).length = 5000 ∧
    send_slack_notification (build_message header39 lines40) =
      (header39 ++ "\n\n" ++ "*Sending data in multiple messages due to size (" ++
        toString (40 : Nat) ++ " targets)*") :: chunk_messages 40 lines40 ∧
    (chunk_messages 40 lines40).length = 4 := by
  have h := C8_long_message_chunking header39 lines40 (by decide) (by decide) (by decide)
    (fun l hl => by rw [List.eq_of_mem_replicate hl]; decide)
    (fun l hl => by rw [List.eq_of_mem_replicate hl]; decide)
    (by rw [build_message_scenario_length]; omega)
  have h40 : lines40.length = 40 := by decide
  rw [h40] at h
  exact ⟨build_message_scenario_length, h.1, h.2.1.trans (by decide)⟩

set_option maxRecDepth 10000 in
/-- C8 counterexample: on the 5000-character message with 40 target
lines the sender posts one header message followed by exactly four
chunk messages, but the count stated inside the header is 40, the
number of target lines: the header contains the text (40 targets) and
not the text (4 targets), so it does not state the chunk count. -/
theorem C8_counterexample_header_states_line_count :
    (send_slack_notification (build_message header39 lines40)).length = 1 + 4 ∧
    has_substr "(40 targets)".data
      ((send_slack_notification (build_message header39 lines40)).headD "").data = true ∧
    has_substr "(4 targets)".data
      ((send_slack_notification (build_message header39 lines40)).headD "").data = false := by
  have h := send_slack_long_message_spec header39 lines40 (by decide) (by decide) (by decide)
    (fun l hl => by rw [List.eq_of_mem_replicate hl]; decide)
    (fun l hl => by rw [List.eq_of_mem_replicate hl]; decide)
    (by rw [build_message_scenario_length]; omega)
  have h40 : lines40.length = 40 := by decide
  rw [h40] at h
  rw [h.1]
  refine ⟨?_, ?_, ?_⟩
  · rw [List.length_cons, h.2.1]
  · rw [List.headD_cons]
    decide
  · rw [List.headD_cons]
    decide
